import Mathlib

/-!
Verification development for the Test Data Generation Engine of the
`test_data_hub` repository.  The definitions below are a shallow embedding of
the engine in `src/test-data-generator.tsx`: each definition carries a doc
comment naming the source function it embeds.  JavaScript randomness
(`Math.random()`), the current time (`Date.now()`) and the base-36 token of a
random float are modelled by an explicit `Oracle` of streams, indexed by a
counter that is threaded through every computation exactly where the source
calls `Math.random()`.
-/

namespace TDG

/-- Runtime values that the engine stores into generated records.  `numLit`
carries the source text of the two JavaScript number literals that are not
small integers (the `decimal` literal `123.456` and the `overflow` literal
`999999999999999999999`); no claim inspects their numeric value. -/
inductive JsVal where
  | vStr (s : String)
  | vInt (n : Int)
  | numLit (lit : String)
  | vBool (b : Bool)
  | vNull
deriving DecidableEq, Repr

/-- The `type` field of `FieldConfig` (src/test-data-generator.tsx line 34). -/
inductive FType where
  | string
  | number
  | boolean
  | date
  | email
  | phone
deriving DecidableEq, Repr

/-- The `dataType` field of `FieldConfig` (line 35). -/
inductive DType where
  | static
  | range
  | lookup
  | minmax
  | pattern
deriving DecidableEq, Repr

/-- The `config` bag of `FieldConfig` (lines 39-50).  The `csvFile : File`
handle is UI-only state and is never read by the engine, so it is omitted.
Numeric entries are `Option Int` (TypeScript `number | undefined`). -/
structure GenConfig where
  staticValue : Option String
  rangeMin : Option Int
  rangeMax : Option Int
  lookupValues : Option (List String)
  csvData : Option (List (List String))
  csvColumn : Option String
  minLength : Option Int
  maxLength : Option Int
  pattern : Option String
deriving DecidableEq, Repr

/-- `FieldConfig` (lines 31-51). -/
structure FieldConfig where
  id : String
  name : String
  type : FType
  dataType : DType
  required : Bool
  maxFieldLength : Option Int
  generateNegativeTests : Option Bool
  config : GenConfig
deriving DecidableEq, Repr

/-- One recorded UI interaction, `SidCommand` (lines 53-60). -/
structure SidCommand where
  id : String
  label : Option String
  command : String
  target : String
  value : String
  randomization : Option String
deriving DecidableEq, Repr

/-- Model of the impure inputs of the engine.  `rand i` stands for the `i`-th
`Math.random()` draw, already scaled: every use site of the form
`Math.floor(Math.random() * n)` is modelled as `rand i % n`, which reaches
exactly the values the source can produce.  `tok i` stands for
`Math.random().toString(36).substring(2, 8)` (a base-36 fragment of the same
draw) and `date i` for the ISO date string built from `Date.now()` minus the
same draw scaled to a year; both are opaque because they depend on the float
value and on real time, which a shallow embedding cannot reproduce.  Each of
the three consumes one position of the shared counter, exactly as each
`Math.random()` call advances the JavaScript PRNG once. -/
structure Oracle where
  rand : Nat → Nat
  tok : Nat → String
  date : Nat → String

/-- JavaScript `x || d` for an optional number: `undefined` and `0` are falsy
and fall back to the default. -/
def jsOrInt (x : Option Int) (d : Int) : Int :=
  match x with
  | none => d
  | some v => if v = 0 then d else v

/-- JavaScript truthiness of an optional number: present and nonzero. -/
def intTruthy (x : Option Int) : Bool :=
  match x with
  | none => false
  | some v => v != 0

/-- JavaScript truthiness of an optional boolean flag. -/
def jsOrBool (x : Option Bool) : Bool := x.getD false

/-- JavaScript truthiness of an optional string: present and nonempty. -/
def strTruthy (x : Option String) : Bool :=
  match x with
  | none => false
  | some s => s != ""

/-- JavaScript `String.prototype.trim`: strip leading and trailing
whitespace (computed structurally over the character list). -/
def jsTrim (s : String) : String :=
  String.mk (((s.data.dropWhile Char.isWhitespace).reverse.dropWhile Char.isWhitespace).reverse)

/-- Models `Math.floor(Math.random() * n)` where the draw is `r`.  For
`0 < n` the result ranges over `[0, n-1]`; for `n ≤ 0` the JavaScript
expression ranges over `[n, 0]` (the float product lies in `(n, 0]`), which
the second branch reproduces. -/
def jsRandFloorMul (r : Nat) (n : Int) : Int :=
  if 0 < n then (r : Int) % n else -((r : Int) % (1 - n))

/-- Embedding of `getLookupValues` (lines 602-616).  The guard
`csvData && csvColumn` requires `csvData` present (an array is always truthy)
and `csvColumn` present and nonempty.  The source then reads `csvData[0]`;
when `csvData` is the empty grid that read is `undefined` and
`undefined.indexOf` throws a `TypeError`, so the `some []` case below (which
falls through to the manual list) is reachable in JavaScript only as a crash;
theorems that depend on CSV resolution exclude it by hypothesis. -/
def getLookupValues (f : FieldConfig) : List String :=
  let manual := (f.config.lookupValues.getD []).filter (fun v => jsTrim v != "")
  match f.config.csvData, f.config.csvColumn with
  | some rows, some col =>
    if col != "" then
      match rows with
      | [] => manual
      | header :: body =>
        match header.findIdx? (fun h => h == col) with
        | some j => (body.map (fun row => row.getD j "")).filter (fun v => jsTrim v != "")
        | none => manual
    else manual
  | _, _ => manual

/-- The crash case of `getLookupValues` described above: the source throws a
`TypeError` when `csvData` is `[]` and `csvColumn` is truthy. -/
def csvCrash (f : FieldConfig) : Prop :=
  f.config.csvData = some [] ∧ strTruthy f.config.csvColumn = true

instance (f : FieldConfig) : Decidable (csvCrash f) := by
  unfold csvCrash; infer_instance

/-- Embedding of `shouldAutoEnableNegativeTests` (lines 127-143). -/
def shouldAutoEnableNegativeTests (f : FieldConfig) : Bool :=
  if f.required then true
  else if intTruthy f.maxFieldLength || f.config.rangeMin.isSome || f.config.rangeMax.isSome then true
  else if f.type = .email || f.type = .phone || f.type = .date then true
  else false

/-- Embedding of `getNegativeTestTypes` (lines 381-421): the `required`-driven
kinds first, then the `switch` on `field.type`. -/
def getNegativeTestTypes (f : FieldConfig) : List String :=
  (if f.required then ["empty", "null"] else []) ++
  (match f.type with
   | .string =>
     ["too_long", "special_chars", "sql_injection"] ++
     (if intTruthy f.maxFieldLength then ["exceed_length"] else [])
   | .email => ["invalid_format", "missing_at", "missing_domain"]
   | .phone => ["invalid_format", "too_short", "too_long", "letters"]
   | .number =>
     ["string_value", "negative", "decimal", "overflow"] ++
     (if f.config.rangeMin.isSome then ["below_min"] else []) ++
     (if f.config.rangeMax.isSome then ["above_max"] else [])
   | .date => ["invalid_format", "future_date", "past_date", "invalid_day"]
   | .boolean => ["string_value", "number_value"])

/-- Embedding of `generateNegativeValue` (lines 423-473).  The table is
deterministic.  `exceed_length` builds `"A".repeat((maxFieldLength || 50) + 10)`;
`String.repeat` throws on a negative count, which `Int.toNat` clamps to `0`
instead — theorems about that kind therefore assume a positive bound. -/
def generateNegativeValue (f : FieldConfig) (testType : String) : JsVal :=
  match testType with
  | "empty" => .vStr ""
  | "null" => .vNull
  | "too_long" => .vStr (String.mk (List.replicate 1000 'A'))
  | "exceed_length" => .vStr (String.mk (List.replicate (jsOrInt f.maxFieldLength 50 + 10).toNat 'A'))
  | "special_chars" => .vStr "!@#$%^&*()_+\x7b\x7d|:<>?[]\\;\x27\",./"
  | "sql_injection" => .vStr "\x27; DROP TABLE users; --"
  | "invalid_format" =>
    if f.type = .email then .vStr "invalid-email-format"
    else if f.type = .phone then .vStr "abc-def-ghij"
    else if f.type = .date then .vStr "2024-13-45"
    else .vStr "invalid_format"
  | "missing_at" => .vStr "emailwithoutatsign.com"
  | "missing_domain" => .vStr "email@"
  | "too_short" => .vStr "123"
  | "letters" => .vStr "abcdefghij"
  | "string_value" => .vStr "not_a_number"
  | "negative" => .vInt (-999999)
  | "decimal" => .numLit "123.456"
  | "overflow" => .numLit "999999999999999999999"
  | "below_min" => .vInt (jsOrInt f.config.rangeMin 0 - 1)
  | "above_max" => .vInt (jsOrInt f.config.rangeMax 100 + 1)
  | "future_date" => .vStr "2099-12-31"
  | "past_date" => .vStr "1900-01-01"
  | "invalid_day" => .vStr "2024-02-30"
  | "number_value" => .vInt 123
  | _ => .vStr "invalid_test_value"

/-- Embedding of `generatePasswordPattern` (lines 220-236). -/
def generatePasswordPattern (password : String) : String :=
  String.join (password.data.map (fun c =>
    if c.isUpper then "{UPPER}"
    else if c.isLower then "{lower}"
    else if c.isDigit then "{digit}"
    else String.mk [c]))

/-- Embedding of `generatePhonePattern` (lines 238-240). -/
def generatePhonePattern (phone : String) : String :=
  String.join (phone.data.map (fun c => if c.isDigit then "{digit}" else String.mk [c]))

/-- Collapses every run of whitespace into a single underscore: the
`replace(/\s+/g, "_")` step of the field-name derivation (line 157).
The boolean records whether the previous character was inside a run. -/
def wsCollapse : List Char → Bool → List Char
  | [], _ => []
  | c :: rest, inRun =>
    if c.isWhitespace then
      if inRun then wsCollapse rest true else '_' :: wsCollapse rest true
    else c :: wsCollapse rest false

/-- Field-name derivation (line 157): lower-case the label, then replace each
whitespace run by one underscore. -/
def deriveFieldName (label : String) : String :=
  String.mk (wsCollapse (label.data.map Char.toLower) false)

/-- JavaScript `/^\d+$/.test(v)` (line 169). -/
def isPureDigits (v : String) : Bool :=
  v != "" && v.data.all Char.isDigit

/-- Characters before the first occurrence of `ch`. -/
def takeUntil (ch : Char) : List Char → List Char
  | [] => []
  | c :: rest => if c = ch then [] else c :: takeUntil ch rest

/-- Characters after the first occurrence of `ch` (empty if absent). -/
def dropThroughFirst (ch : Char) : List Char → List Char
  | [] => []
  | c :: rest => if c = ch then rest else dropThroughFirst ch rest

/-- An all-`none` config bag, the `const config = {}` of line 162. -/
def emptyGenConfig : GenConfig := ⟨none, none, none, none, none, none, none, none, none⟩

/-- A config bag holding only a pattern template. -/
def patternOnlyConfig (p : String) : GenConfig :=
  ⟨none, none, none, none, none, none, none, none, some p⟩

/-- Type/strategy/config inference for one relevant command: the decision
chain of lines 165-194, first matching rule wins. -/
def inferTypeAndConfig (cmd : SidCommand) : FType × DType × GenConfig :=
  if cmd.command = "password" then
    (.string, .pattern, patternOnlyConfig (generatePasswordPattern cmd.value))
  else if isPureDigits cmd.value then
    if 6 ≤ cmd.value.length then
      let baseValue : Int := (cmd.value.toNat?.getD 0 : Int)
      (.number, .range,
        ⟨none, some (max 1 (baseValue - 1000000)), some (baseValue + 1000000),
         none, none, none, none, none, none⟩)
    else
      (.number, .static, ⟨some cmd.value, none, none, none, none, none, none, none, none⟩)
  else if cmd.value.data.contains '@' then
    (.email, .pattern, patternOnlyConfig
      ("{random}@" ++ String.mk (takeUntil '@' (dropThroughFirst '@' cmd.value.data))))
  else if 10 ≤ (cmd.value.data.filter Char.isDigit).length then
    (.phone, .pattern, patternOnlyConfig (generatePhonePattern cmd.value))
  else
    (.string, .minmax,
      ⟨none, none, none, none, none, none,
       some (max 1 ((cmd.value.length : Int) - 2)), some ((cmd.value.length : Int) + 2), none⟩)

/-- The guard of line 156: label and value truthy, command `type` or
`password`. -/
def sidRelevant (cmd : SidCommand) : Bool :=
  strTruthy cmd.label && cmd.value != "" && (cmd.command == "type" || cmd.command == "password")

/-- The field-extraction loop of `parseSidFile` (lines 152-212), over an
already flattened command sequence (the source iterates tests then commands
with one shared accumulator, which is the same traversal).  `ids i` models
`Date.now().toString() + Math.random()`, the identifier given to the `i`-th
extracted field; it depends on real time and is opaque here.  A command whose
derived name was already extracted is skipped (first occurrence wins). -/
def sidExtractFields (ids : Nat → String) : List SidCommand → List FieldConfig → List FieldConfig
  | [], acc => acc
  | cmd :: rest, acc =>
    if sidRelevant cmd then
      let fieldName := deriveFieldName (cmd.label.getD "")
      if acc.any (fun f => f.name == fieldName) then
        sidExtractFields ids rest acc
      else
        let (t, dt, cfg) := inferTypeAndConfig cmd
        sidExtractFields ids rest (acc ++ [⟨ids acc.length, fieldName, t, dt, true, none, none, cfg⟩])
    else sidExtractFields ids rest acc

/-- The alphanumeric alphabet of `generateRandomString` (line 516). -/
def chars62 : List Char :=
  "ABCDEFGHIJKLMNOPQRSTUVWXYZabcdefghijklmnopqrstuvwxyz0123456789".data

/-- The character-accumulation loop of `generateRandomString` (lines 517-520):
one oracle draw per character. -/
def randChars (o : Oracle) : Nat → Nat → List Char × Nat
  | 0, k => ([], k)
  | n + 1, k =>
    let c := chars62.getD (o.rand k % 62) 'A'
    let (rest, k2) := randChars o n (k + 1)
    (c :: rest, k2)

/-- Embedding of `generateRandomString` (lines 515-537).  The `length`
argument is an `Int` because the caller computes it from (possibly negative)
configured bounds; the JavaScript loop runs zero times for a non-positive
length, hence `Int.toNat`.  The `date` branch reads `Date.now()`, modelled by
the oracle. -/
def generateRandomString (o : Oracle) (k : Nat) (length : Int) (type : FType) : JsVal × Nat :=
  let (cs, k1) := randChars o length.toNat k
  let result := String.mk cs
  match type with
  | .email => (.vStr (String.mk (cs.map Char.toLower) ++ "@example.com"), k1)
  | .phone => (.vStr ("+1" ++ toString (1000000000 + o.rand k1 % 9000000000)), k1 + 1)
  | .number => (.vInt ((o.rand k1 % 1000 : Nat) : Int), k1 + 1)
  | .boolean => (.vBool (o.rand k1 % 2 = 1), k1 + 1)
  | .date => (.vStr (o.date k1), k1 + 1)
  | _ => (.vStr result, k1)

/-- One global-replace pass of `generateFromPattern`: scans for the token
`t0 :: ts` and replaces every occurrence by `gen` applied to the current
oracle position, consuming one position per occurrence, exactly as the
callback of `String.replace(/.../g, cb)` fires once per match, left to
right. -/
def replacePass (t0 : Char) (ts : List Char) (gen : Nat → List Char) :
    List Char → Nat → List Char × Nat
  | [], k => ([], k)
  | c :: rest, k =>
    if c = t0 ∧ rest.take ts.length = ts then
      let (tail, k2) := replacePass t0 ts gen (rest.drop ts.length) (k + 1)
      (gen k ++ tail, k2)
    else
      let (tail, k2) := replacePass t0 ts gen rest k
      (c :: tail, k2)
termination_by s _ => s.length
decreasing_by
  · simp only [List.length_drop, List.length_cons]; omega
  · simp only [List.length_cons]; omega

/-- Embedding of `generateFromPattern` (lines 539-556): four sequential
global replaces (`{UPPER}`, `{lower}`, `{digit}`, `{random}`), then for phone
fields one more `{digit}` pass (a no-op, since all `{digit}` tokens were
already replaced; kept for fidelity).  `{random}` expands to the opaque
base-36 token of the draw. -/
def generateFromPattern (o : Oracle) (k : Nat) (pat : String) (fieldType : FType) : JsVal × Nat :=
  let (s1, k1) := replacePass '{' "UPPER\x7d".data
    (fun i => [Char.ofNat (65 + o.rand i % 26)]) pat.data k
  let (s2, k2) := replacePass '{' "lower\x7d".data
    (fun i => [Char.ofNat (97 + o.rand i % 26)]) s1 k1
  let (s3, k3) := replacePass '{' "digit\x7d".data
    (fun i => [Char.ofNat (48 + o.rand i % 10)]) s2 k2
  let (s4, k4) := replacePass '{' "random\x7d".data (fun i => (o.tok i).data) s3 k3
  if fieldType = .phone then
    let (s5, k5) := replacePass '{' "digit\x7d".data
      (fun i => [Char.ofNat (48 + o.rand i % 10)]) s4 k4
    (.vStr (String.mk s5), k5)
  else (.vStr (String.mk s4), k4)

/-- The `switch (field.dataType)` of `generateFieldValue` (lines 480-505),
producing the value before the `maxFieldLength` post-step.  The TypeScript
union for `dataType` has exactly the five cases below, so the `default`
branch of the switch (a random 5-character string) is unreachable and has no
counterpart here.  The `lookup` case with an empty resolved list is an early
`return ""` in the source, which skips the truncation post-step; truncating
the empty string is the identity, so composing with `truncateValue` is
exact. -/
def generateFieldValueCore (o : Oracle) (k : Nat) (f : FieldConfig) : JsVal × Nat :=
  match f.dataType with
  | .static => (.vStr (f.config.staticValue.getD ""), k)
  | .range =>
    let min := jsOrInt f.config.rangeMin 0
    let max := jsOrInt f.config.rangeMax 100
    (.vInt (jsRandFloorMul (o.rand k) (max - min + 1) + min), k + 1)
  | .lookup =>
    let values := getLookupValues f
    if values.length = 0 then (.vStr "", k)
    else (.vStr (values.getD (o.rand k % values.length) ""), k + 1)
  | .minmax =>
    let minLen := jsOrInt f.config.minLength 1
    let maxLen := jsOrInt f.config.maxLength 10
    let length := jsRandFloorMul (o.rand k) (maxLen - minLen + 1) + minLen
    generateRandomString o (k + 1) length f.type
  | .pattern => generateFromPattern o k (f.config.pattern.getD "") f.type

/-- The `maxFieldLength` post-step of `generateFieldValue` (lines 507-510):
truncate when the cap is truthy and the value is a string.
`substring(0, m)` with a negative cap yields the empty string, which
`Int.toNat` reproduces. -/
def truncateValue (m : Option Int) (v : JsVal) : JsVal :=
  match m, v with
  | some n, .vStr s => if n = 0 then .vStr s else .vStr (String.mk (s.data.take n.toNat))
  | _, _ => v

/-- Embedding of `generateFieldValue` (lines 475-513).  The source takes an
`isNegative` parameter that its body never reads; it is omitted.  A field
with an empty name returns `""` before consuming any randomness. -/
def generateFieldValue (o : Oracle) (k : Nat) (f : FieldConfig) : JsVal × Nat :=
  if f.name = "" then (.vStr "", k)
  else
    let (v, k1) := generateFieldValueCore o k f
    (truncateValue f.maxFieldLength v, k1)

/-- A generated record: field names (and the reserved metadata keys) mapped
to values, in JavaScript object insertion order. -/
abbrev GenRecord := List (String × JsVal)

/-- JavaScript object assignment `r[key] = v`: replace in place when the key
exists, append otherwise. -/
def objSet : GenRecord → String → JsVal → GenRecord
  | [], key, v => [(key, v)]
  | p :: rest, key, v =>
    if p.1 = key then (key, v) :: rest else p :: objSet rest key v

/-- JavaScript property read `r[key]`. -/
def lookupKey (r : GenRecord) (key : String) : Option JsVal :=
  (r.find? (fun p => p.1 == key)).map Prod.snd

/-- The shared shape of the three `fields.forEach` record-building loops of
`generateTestData`: skip unnamed fields, otherwise assign the value produced
by `step` for the field at the current oracle position. -/
def buildRecord (step : FieldConfig → Nat → JsVal × Nat) :
    List FieldConfig → GenRecord → Nat → GenRecord × Nat
  | [], r, k => (r, k)
  | f :: fs, r, k =>
    if f.name = "" then buildRecord step fs r k
    else
      let (v, k2) := step f k
      buildRecord step fs (objSet r f.name v) k2

/-- One positive record in lookup mode (lines 310-327): record index `i`
selects `lookupValues[i % length]` for each lookup field (no randomness
consumed); other fields are synthesized. -/
def posRecordLk (o : Oracle) (fields : List FieldConfig) (i : Nat) (k : Nat) : GenRecord × Nat :=
  buildRecord
    (fun f k =>
      if f.dataType = .lookup then
        let lookupValues := getLookupValues f
        if 0 < lookupValues.length then
          (.vStr (lookupValues.getD (i % lookupValues.length) ""), k)
        else (.vStr "", k)
      else generateFieldValue o k f)
    fields [("_testType", .vStr "positive")] k

/-- One positive record in standard mode (lines 331-338). -/
def posRecordStd (o : Oracle) (fields : List FieldConfig) (k : Nat) : GenRecord × Nat :=
  buildRecord (fun f k => generateFieldValue o k f)
    fields [("_testType", .vStr "positive")] k

/-- The lookup-mode positive loop (lines 309-328), producing records for
indices `i, i+1, …`. -/
def posBatchLk (o : Oracle) (fields : List FieldConfig) : Nat → Nat → Nat → List GenRecord × Nat
  | _, 0, k => ([], k)
  | i, n + 1, k =>
    let (r, k1) := posRecordLk o fields i k
    let (rest, k2) := posBatchLk o fields (i + 1) n k1
    (r :: rest, k2)

/-- The standard positive loop (lines 331-338). -/
def posBatchStd (o : Oracle) (fields : List FieldConfig) : Nat → Nat → List GenRecord × Nat
  | 0, k => ([], k)
  | n + 1, k =>
    let (r, k1) := posRecordStd o fields k
    let (rest, k2) := posBatchStd o fields n k1
    (r :: rest, k2)

/-- One negative record (lines 353-373): metadata first, then the field loop;
the field whose `id` matches the target receives the deterministic invalid
value, every other named field a freshly synthesized valid one. -/
def negRecord (o : Oracle) (fields : List FieldConfig) (targetField : FieldConfig)
    (testType : String) (k : Nat) : GenRecord × Nat :=
  buildRecord
    (fun f k =>
      if f.id = targetField.id then (generateNegativeValue f testType, k)
      else generateFieldValue o k f)
    fields
    [("_testType", .vStr ("negative_" ++ testType)),
     ("_targetField", .vStr targetField.name),
     ("_autoSelected", .vBool (shouldAutoEnableNegativeTests targetField))]
    k

/-- The inner `negativeTestTypes.forEach` loop (lines 353-373): one record
per applicable kind, in order. -/
def negBatchForField (o : Oracle) (fields : List FieldConfig) (targetField : FieldConfig) :
    List String → Nat → List GenRecord × Nat
  | [], k => ([], k)
  | t :: ts, k =>
    let (r, k1) := negRecord o fields targetField t k
    let (rest, k2) := negBatchForField o fields targetField ts k1
    (r :: rest, k2)

/-- The outer `negativeTestFields.forEach` loop (lines 349-374). -/
def negBatchAll (o : Oracle) (fields : List FieldConfig) :
    List FieldConfig → Nat → List GenRecord × Nat
  | [], k => ([], k)
  | tf :: tfs, k =>
    let (rs, k1) := negBatchForField o fields tf (getNegativeTestTypes tf) k
    let (rest, k2) := negBatchAll o fields tfs k1
    (rs ++ rest, k2)

/-- The filter of line 302: lookup fields with a nonempty resolved list. -/
def isLkField (f : FieldConfig) : Bool :=
  decide (f.dataType = .lookup) && decide (0 < (getLookupValues f).length)

/-- `Math.max(...lookupFields.map(f => getLookupValues(f).length))`
(line 306); the source only evaluates it on a nonempty list, where folding
from `0` agrees with `Math.max`. -/
def maxLookupLen (fields : List FieldConfig) : Nat :=
  ((fields.filter isLkField).map (fun f => (getLookupValues f).length)).foldl max 0

/-- The eligibility filter of lines 345-347. -/
def negativeTestFields (fields : List FieldConfig) : List FieldConfig :=
  fields.filter (fun f =>
    (jsOrBool f.generateNegativeTests || shouldAutoEnableNegativeTests f) && f.name != "")

/-- Embedding of `generateTestData` (lines 298-379).  `recordCount` and
`includeNegativeTests` are component state read by the source; here they are
arguments.  Positive records come first (lookup mode when some lookup field
resolves nonempty, capped at `min(maxLookupValues, recordCount)`; otherwise
`recordCount` records), then, when the global toggle or any auto-eligible
field enables them, the negative batches per eligible field. -/
def generateTestData (o : Oracle) (fields : List FieldConfig) (recordCount : Nat)
    (includeNegativeTests : Bool) : List GenRecord :=
  let pb :=
    if (fields.filter isLkField).isEmpty then posBatchStd o fields recordCount 0
    else posBatchLk o fields 0 (min (maxLookupLen fields) recordCount) 0
  let shouldIncludeNegativeTests :=
    includeNegativeTests || fields.any shouldAutoEnableNegativeTests
  if shouldIncludeNegativeTests then
    pb.1 ++ (negBatchAll o fields (negativeTestFields fields) pb.2).1
  else pb.1

/-- A record tagged `_testType = "positive"`. -/
def isPositiveRec (r : GenRecord) : Bool :=
  decide (lookupKey r "_testType" = some (.vStr "positive"))

/-- The full negative-kind vocabulary in the order listed in §4.6 of the
specification: the required-driven kinds `empty`, `null` first, then the
type-specific kinds in their listed order, with the conditional kinds
(`exceed_length`, `below_min`, `above_max`) at their listed positions.
Written from the words of the specification, for the order-refinement
claim about negative-record ordering. -/
def specNegativeKindOrder (f : FieldConfig) : List String :=
  ["empty", "null"] ++
  (match f.type with
   | .string => ["too_long", "special_chars", "sql_injection", "exceed_length"]
   | .email => ["invalid_format", "missing_at", "missing_domain"]
   | .phone => ["invalid_format", "too_short", "too_long", "letters"]
   | .number => ["string_value", "negative", "decimal", "overflow", "below_min", "above_max"]
   | .date => ["invalid_format", "future_date", "past_date", "invalid_day"]
   | .boolean => ["string_value", "number_value"])

/-- A degenerate oracle used for concrete evaluations. -/
def oZero : Oracle := ⟨fun _ => 0, fun _ => "", fun _ => ""⟩

/-- An oracle whose every draw is 5, used for a concrete evaluation. -/
def oFive : Oracle := ⟨fun _ => 5, fun _ => "", fun _ => ""⟩

/-! ### Basic lemmas about records and the building loops -/

theorem lookupKey_nil (key : String) : lookupKey [] key = none := rfl

theorem lookupKey_cons (p : String × JsVal) (rest : GenRecord) (key : String) :
    lookupKey (p :: rest) key = if p.1 = key then some p.2 else lookupKey rest key := by
  by_cases h : p.1 = key
  · simp [lookupKey, List.find?, h]
  · have hb : (p.1 == key) = false := beq_eq_false_iff_ne.mpr h
    simp [lookupKey, List.find?, hb, h]

theorem lookupKey_objSet_self (r : GenRecord) (key : String) (v : JsVal) :
    lookupKey (objSet r key v) key = some v := by
  induction r with
  | nil => simp [objSet, lookupKey_cons]
  | cons p rest ih =>
    by_cases h : p.1 = key
    · simp [objSet, h, lookupKey_cons]
    · simp [objSet, h, lookupKey_cons, ih]

theorem lookupKey_objSet_ne (r : GenRecord) {key key2 : String} (v : JsVal)
    (h : key2 ≠ key) : lookupKey (objSet r key v) key2 = lookupKey r key2 := by
  induction r with
  | nil => simp [objSet, lookupKey_cons, lookupKey_nil, Ne.symm h]
  | cons p rest ih =>
    by_cases hp : p.1 = key
    · rw [show objSet (p :: rest) key v = (key, v) :: rest from by simp [objSet, hp]]
      rw [lookupKey_cons, lookupKey_cons]
      simp only [if_neg (Ne.symm h)]
      rw [if_neg (by rw [hp]; exact Ne.symm h)]
    · rw [show objSet (p :: rest) key v = p :: objSet rest key v from by simp [objSet, hp]]
      rw [lookupKey_cons, lookupKey_cons, ih]

theorem mem_objSet {p : String × JsVal} {r : GenRecord} {key : String} {v : JsVal}
    (h : p ∈ objSet r key v) : p ∈ r ∨ p = (key, v) := by
  induction r with
  | nil => simpa [objSet] using h
  | cons q rest ih =>
    by_cases hq : q.1 = key
    · simp only [objSet, if_pos hq, List.mem_cons] at h
      rcases h with h | h
      · exact Or.inr h
      · exact Or.inl (List.mem_cons_of_mem _ h)
    · simp only [objSet, if_neg hq, List.mem_cons] at h
      rcases h with h | h
      · exact Or.inl (by simp [h])
      · rcases ih h with h' | h'
        · exact Or.inl (List.mem_cons_of_mem _ h')
        · exact Or.inr h'

theorem buildRecord_key_frozen (step : FieldConfig → Nat → JsVal × Nat)
    (fields : List FieldConfig) (key : String)
    (hf : ∀ f ∈ fields, f.name = "" ∨ f.name ≠ key) :
    ∀ (r : GenRecord) (k : Nat),
      lookupKey (buildRecord step fields r k).1 key = lookupKey r key := by
  induction fields with
  | nil => intro r k; simp [buildRecord]
  | cons f fs ih =>
    intro r k
    have hfs : ∀ g ∈ fs, g.name = "" ∨ g.name ≠ key := fun g hg => hf g (List.mem_cons_of_mem _ hg)
    by_cases hn : f.name = ""
    · simp only [buildRecord, if_pos hn]
      exact ih hfs r k
    · have hne : f.name ≠ key := (hf f (List.mem_cons_self _ _)).resolve_left hn
      simp only [buildRecord, if_neg hn]
      rw [ih hfs]
      exact lookupKey_objSet_ne r _ (Ne.symm hne)

theorem buildRecord_keys_ne (step : FieldConfig → Nat → JsVal × Nat)
    (fields : List FieldConfig) :
    ∀ (r : GenRecord) (k : Nat), (∀ p ∈ r, p.1 ≠ "") →
      ∀ p ∈ (buildRecord step fields r k).1, p.1 ≠ "" := by
  induction fields with
  | nil => intro r k hr; simpa [buildRecord] using hr
  | cons f fs ih =>
    intro r k hr
    by_cases hn : f.name = ""
    · simp only [buildRecord, if_pos hn]
      exact ih r k hr
    · simp only [buildRecord, if_neg hn]
      refine ih _ _ ?_
      intro p hp
      rcases mem_objSet hp with h | h
      · exact hr p h
      · rw [h]; exact hn

theorem buildRecord_append (step : FieldConfig → Nat → JsVal × Nat)
    (l1 l2 : List FieldConfig) :
    ∀ (r : GenRecord) (k : Nat),
      buildRecord step (l1 ++ l2) r k =
        buildRecord step l2 (buildRecord step l1 r k).1 (buildRecord step l1 r k).2 := by
  induction l1 with
  | nil => intro r k; simp [buildRecord]
  | cons f fs ih =>
    intro r k
    by_cases hn : f.name = ""
    · simp only [List.cons_append, buildRecord, if_pos hn]
      exact ih r k
    · simp only [List.cons_append, buildRecord, if_neg hn]
      exact ih _ _

theorem buildRecord_target (step : FieldConfig → Nat → JsVal × Nat)
    (f : FieldConfig) (v : JsVal) (pre post : List FieldConfig) (r : GenRecord) (k : Nat)
    (hv : ∀ k, (step f k).1 = v) (hn : f.name ≠ "")
    (hpost : ∀ g ∈ post, g.name = "" ∨ g.name ≠ f.name) :
    lookupKey (buildRecord step (pre ++ f :: post) r k).1 f.name = some v := by
  rw [buildRecord_append]
  set r1 := (buildRecord step pre r k).1
  set k1 := (buildRecord step pre r k).2
  simp only [buildRecord, if_neg hn]
  have hstep : step f k1 = ((step f k1).1, (step f k1).2) := rfl
  rw [hstep, hv k1]
  rw [buildRecord_key_frozen step post f.name hpost]
  exact lookupKey_objSet_self r1 f.name v

/-! ### Batch structure lemmas -/

theorem posBatchStd_length (o : Oracle) (fields : List FieldConfig) :
    ∀ (n k : Nat), ((posBatchStd o fields n k).1).length = n := by
  intro n
  induction n with
  | zero => intro k; simp [posBatchStd]
  | succ m ih => intro k; simp [posBatchStd, ih]

theorem posBatchLk_length (o : Oracle) (fields : List FieldConfig) :
    ∀ (n i k : Nat), ((posBatchLk o fields i n k).1).length = n := by
  intro n
  induction n with
  | zero => intro i k; simp [posBatchLk]
  | succ m ih => intro i k; simp [posBatchLk, ih]

theorem posBatchStd_mem (o : Oracle) (fields : List FieldConfig) :
    ∀ (n k : Nat), ∀ r ∈ (posBatchStd o fields n k).1,
      ∃ k0, r = (posRecordStd o fields k0).1 := by
  intro n
  induction n with
  | zero => intro k r hr; simp [posBatchStd] at hr
  | succ m ih =>
    intro k r hr
    simp only [posBatchStd, List.mem_cons] at hr
    rcases hr with hr | hr
    · exact ⟨k, hr⟩
    · exact ih _ r hr

theorem posBatchLk_mem (o : Oracle) (fields : List FieldConfig) :
    ∀ (n i k : Nat), ∀ r ∈ (posBatchLk o fields i n k).1,
      ∃ i0 k0, r = (posRecordLk o fields i0 k0).1 := by
  intro n
  induction n with
  | zero => intro i k r hr; simp [posBatchLk] at hr
  | succ m ih =>
    intro i k r hr
    simp only [posBatchLk, List.mem_cons] at hr
    rcases hr with hr | hr
    · exact ⟨i, k, hr⟩
    · exact ih _ _ r hr

theorem posBatchLk_getElem (o : Oracle) (fields : List FieldConfig) :
    ∀ (n i k j : Nat), j < n →
      ∃ k0, ((posBatchLk o fields i n k).1)[j]? =
        some ((posRecordLk o fields (i + j) k0).1) := by
  intro n
  induction n with
  | zero => intro i k j hj; omega
  | succ m ih =>
    intro i k j hj
    match j with
    | 0 => exact ⟨k, by simp [posBatchLk]⟩
    | j' + 1 =>
      have hj' : j' < m := by omega
      obtain ⟨k0, hk0⟩ := ih (i + 1) ((posRecordLk o fields i k).2) j' hj'
      refine ⟨k0, ?_⟩
      simp only [posBatchLk, List.getElem?_cons_succ]
      rw [hk0]
      have : i + 1 + j' = i + (j' + 1) := by omega
      rw [this]

theorem posRecordStd_testType (o : Oracle) (fields : List FieldConfig) (k : Nat)
    (hf : ∀ f ∈ fields, f.name = "" ∨ f.name ≠ "_testType") :
    lookupKey (posRecordStd o fields k).1 "_testType" = some (.vStr "positive") := by
  unfold posRecordStd
  rw [buildRecord_key_frozen _ _ _ hf]
  simp [lookupKey, List.find?]

theorem posRecordLk_testType (o : Oracle) (fields : List FieldConfig) (i k : Nat)
    (hf : ∀ f ∈ fields, f.name = "" ∨ f.name ≠ "_testType") :
    lookupKey (posRecordLk o fields i k).1 "_testType" = some (.vStr "positive") := by
  unfold posRecordLk
  rw [buildRecord_key_frozen _ _ _ hf]
  simp [lookupKey, List.find?]

theorem negRecord_testType (o : Oracle) (fields : List FieldConfig)
    (tf : FieldConfig) (t : String) (k : Nat)
    (hf : ∀ f ∈ fields, f.name = "" ∨ f.name ≠ "_testType") :
    lookupKey (negRecord o fields tf t k).1 "_testType" =
      some (.vStr ("negative_" ++ t)) := by
  unfold negRecord
  rw [buildRecord_key_frozen _ _ _ hf]
  simp [lookupKey, List.find?]

theorem negRecord_autoSelected (o : Oracle) (fields : List FieldConfig)
    (tf : FieldConfig) (t : String) (k : Nat)
    (hf : ∀ f ∈ fields, f.name = "" ∨ f.name ≠ "_autoSelected") :
    lookupKey (negRecord o fields tf t k).1 "_autoSelected" =
      some (.vBool (shouldAutoEnableNegativeTests tf)) := by
  unfold negRecord
  rw [buildRecord_key_frozen _ _ _ hf]
  simp [lookupKey, List.find?]

theorem negBatchForField_map (o : Oracle) (fields : List FieldConfig) (tf : FieldConfig)
    (hf : ∀ f ∈ fields, f.name = "" ∨ f.name ≠ "_testType") :
    ∀ (ts : List String) (k : Nat),
      ((negBatchForField o fields tf ts k).1).map (fun r => lookupKey r "_testType") =
        ts.map (fun t => some (.vStr ("negative_" ++ t))) := by
  intro ts
  induction ts with
  | nil => intro k; simp [negBatchForField]
  | cons t ts' ih =>
    intro k
    simp only [negBatchForField, List.map_cons]
    rw [negRecord_testType o fields tf t k hf, ih]

theorem negBatchForField_length (o : Oracle) (fields : List FieldConfig) (tf : FieldConfig) :
    ∀ (ts : List String) (k : Nat),
      ((negBatchForField o fields tf ts k).1).length = ts.length := by
  intro ts
  induction ts with
  | nil => intro k; simp [negBatchForField]
  | cons t ts' ih => intro k; simp [negBatchForField, ih]

theorem negBatchForField_mem (o : Oracle) (fields : List FieldConfig) (tf : FieldConfig) :
    ∀ (ts : List String) (k : Nat), ∀ r ∈ (negBatchForField o fields tf ts k).1,
      ∃ t ∈ ts, ∃ k0, r = (negRecord o fields tf t k0).1 := by
  intro ts
  induction ts with
  | nil => intro k r hr; simp [negBatchForField] at hr
  | cons t ts' ih =>
    intro k r hr
    simp only [negBatchForField, List.mem_cons] at hr
    rcases hr with hr | hr
    · exact ⟨t, List.mem_cons_self _ _, k, hr⟩
    · obtain ⟨t', ht', k0, hk0⟩ := ih _ r hr
      exact ⟨t', List.mem_cons_of_mem _ ht', k0, hk0⟩

theorem negBatchAll_mem (o : Oracle) (fields : List FieldConfig) :
    ∀ (tfs : List FieldConfig) (k : Nat), ∀ r ∈ (negBatchAll o fields tfs k).1,
      ∃ tf ∈ tfs, ∃ t ∈ getNegativeTestTypes tf, ∃ k0,
        r = (negRecord o fields tf t k0).1 := by
  intro tfs
  induction tfs with
  | nil => intro k r hr; simp [negBatchAll] at hr
  | cons tf tfs' ih =>
    intro k r hr
    simp only [negBatchAll, List.mem_append] at hr
    rcases hr with hr | hr
    · obtain ⟨t, ht, k0, hk0⟩ := negBatchForField_mem o fields tf _ _ r hr
      exact ⟨tf, List.mem_cons_self _ _, t, ht, k0, hk0⟩
    · obtain ⟨tf', htf', rest⟩ := ih _ r hr
      exact ⟨tf', List.mem_cons_of_mem _ htf', rest⟩

theorem negBatchAll_map (o : Oracle) (fields : List FieldConfig)
    (hf : ∀ f ∈ fields, f.name = "" ∨ f.name ≠ "_testType") :
    ∀ (tfs : List FieldConfig) (k : Nat),
      ((negBatchAll o fields tfs k).1).map (fun r => lookupKey r "_testType") =
        tfs.flatMap (fun tf =>
          (getNegativeTestTypes tf).map (fun t => some (.vStr ("negative_" ++ t)))) := by
  intro tfs
  induction tfs with
  | nil => intro k; simp [negBatchAll]
  | cons tf tfs' ih =>
    intro k
    simp only [negBatchAll, List.map_append, List.flatMap_cons]
    rw [negBatchForField_map o fields tf hf, ih]

theorem posBatchStd_map (o : Oracle) (fields : List FieldConfig)
    (hf : ∀ f ∈ fields, f.name = "" ∨ f.name ≠ "_testType") :
    ∀ (n k : Nat),
      ((posBatchStd o fields n k).1).map (fun r => lookupKey r "_testType") =
        List.replicate n (some (.vStr "positive")) := by
  intro n
  induction n with
  | zero => intro k; simp [posBatchStd]
  | succ m ih =>
    intro k
    simp only [posBatchStd, List.map_cons, List.replicate_succ]
    rw [posRecordStd_testType o fields _ hf, ih]

theorem posBatchLk_map (o : Oracle) (fields : List FieldConfig)
    (hf : ∀ f ∈ fields, f.name = "" ∨ f.name ≠ "_testType") :
    ∀ (n i k : Nat),
      ((posBatchLk o fields i n k).1).map (fun r => lookupKey r "_testType") =
        List.replicate n (some (.vStr "positive")) := by
  intro n
  induction n with
  | zero => intro i k; simp [posBatchLk]
  | succ m ih =>
    intro i k
    simp only [posBatchLk, List.map_cons, List.replicate_succ]
    rw [posRecordLk_testType o fields _ _ hf, ih]

theorem negative_ne_positive (t : String) : "negative_" ++ t ≠ "positive" := by
  intro h
  have hlen : ("negative_" ++ t).length = ("positive" : String).length :=
    congrArg String.length h
  rw [String.length_append] at hlen
  have h9 : ("negative_" : String).length = 9 := rfl
  have h8 : ("positive" : String).length = 8 := rfl
  rw [h9, h8] at hlen
  omega

/-! ### Value-level lemmas -/

theorem jsRandFloorMul_bounds {r : Nat} {n : Int} (h : 0 < n) :
    0 ≤ jsRandFloorMul r n ∧ jsRandFloorMul r n < n := by
  unfold jsRandFloorMul
  rw [if_pos h]
  exact ⟨Int.emod_nonneg _ (by omega), Int.emod_lt_of_pos _ h⟩

theorem randChars_length (o : Oracle) :
    ∀ (n k : Nat), ((randChars o n k).1).length = n := by
  intro n
  induction n with
  | zero => intro k; simp [randChars]
  | succ m ih => intro k; simp [randChars, ih]

theorem truncateValue_int (m : Option Int) (x : Int) :
    truncateValue m (.vInt x) = .vInt x := by
  cases m <;> rfl

theorem truncateValue_emptyStr (m : Option Int) :
    truncateValue m (.vStr "") = .vStr "" := by
  cases m with
  | none => rfl
  | some n =>
    by_cases h : n = 0
    · simp [truncateValue, h]
    · simp [truncateValue, h]

theorem generateRandomString_string_length (o : Oracle) (k : Nat) (len : Int) :
    generateRandomString o k len .string =
      (.vStr (String.mk (randChars o len.toNat k).1), (randChars o len.toNat k).2) ∧
    (String.mk (randChars o len.toNat k).1).length = len.toNat := by
  constructor
  · simp [generateRandomString]
  · show ((randChars o len.toNat k).1).length = len.toNat
    exact randChars_length o len.toNat k

/-- Structural form of `generateTestData`: the positive batch (lookup mode or
standard mode) followed by the negative batches when enabled. -/
theorem generateTestData_eq_pos_neg (o : Oracle) (fields : List FieldConfig)
    (rc : Nat) (inc : Bool) :
    generateTestData o fields rc inc =
      (if (fields.filter isLkField).isEmpty then (posBatchStd o fields rc 0).1
       else (posBatchLk o fields 0 (min (maxLookupLen fields) rc) 0).1) ++
      (if (inc || fields.any shouldAutoEnableNegativeTests) then
        (negBatchAll o fields (negativeTestFields fields)
          (if (fields.filter isLkField).isEmpty then (posBatchStd o fields rc 0).2
           else (posBatchLk o fields 0 (min (maxLookupLen fields) rc) 0).2)).1
       else []) := by
  unfold generateTestData
  by_cases hlk : (fields.filter isLkField).isEmpty <;>
    by_cases hneg : (inc || fields.any shouldAutoEnableNegativeTests) = true <;>
    simp [hlk, hneg]

/-- Every record in a generation run is one of the three record shapes. -/
theorem mem_generateTestData (o : Oracle) (fields : List FieldConfig)
    (rc : Nat) (inc : Bool) {r : GenRecord}
    (hr : r ∈ generateTestData o fields rc inc) :
    (∃ k0, r = (posRecordStd o fields k0).1) ∨
    (∃ i0 k0, r = (posRecordLk o fields i0 k0).1) ∨
    (∃ tf ∈ negativeTestFields fields, ∃ t ∈ getNegativeTestTypes tf, ∃ k0,
      r = (negRecord o fields tf t k0).1) := by
  rw [generateTestData_eq_pos_neg] at hr
  rcases List.mem_append.mp hr with h | h
  · by_cases hlk : (fields.filter isLkField).isEmpty
    · rw [if_pos hlk] at h
      obtain ⟨k0, hk0⟩ := posBatchStd_mem o fields rc 0 r h
      exact Or.inl ⟨k0, hk0⟩
    · rw [if_neg hlk] at h
      obtain ⟨i0, k0, hk0⟩ := posBatchLk_mem o fields _ 0 0 r h
      exact Or.inr (Or.inl ⟨i0, k0, hk0⟩)
  · by_cases hneg : (inc || fields.any shouldAutoEnableNegativeTests) = true
    · rw [if_pos hneg] at h
      obtain ⟨tf, htf, t, ht, k0, hk0⟩ := negBatchAll_mem o fields _ _ r h
      exact Or.inr (Or.inr ⟨tf, htf, t, ht, k0, hk0⟩)
    · rw [if_neg hneg] at h
      simp at h

theorem findIdx?_eq_none_of_not_mem {c : String} :
    ∀ (l : List String), c ∉ l → ∀ i, List.findIdx? (fun x => x == c) l i = none := by
  intro l
  induction l with
  | nil => intro _ i; rfl
  | cons a l' ih =>
    intro h i
    have ha : a ≠ c := fun hac => h (hac ▸ List.mem_cons_self _ _)
    have hl : c ∉ l' := fun hc => h (List.mem_cons_of_mem _ hc)
    rw [List.findIdx?_cons]
    simp only [beq_iff_eq, ha, if_false]
    exact ih hl (i + 1)

/-! ### Claim C1 -/

/-- The concrete input refuting claim C1: a lookup field whose `csvColumn`
does not occur in the CSV header row but whose manual `lookupValues` list is
nonempty. -/
def c1cexField : FieldConfig :=
  ⟨"c1x", "city", .string, .lookup, false, none, none,
    ⟨none, none, none, some ["manual"], some [["colA"], ["x"]], some "colB", none, none, none⟩⟩

/-- C1 counterexample: with `csvData`/`csvColumn` both set and the column
absent from the header row, but a nonempty manual `lookupValues` list, lookup
resolution does NOT return the empty sequence (it falls back to the manual
list) and lookup synthesis does NOT yield the empty string — refuting the
claim, which asserts both regardless of `lookupValues`. -/
theorem c1_counterexample :
    getLookupValues c1cexField ≠ [] ∧
    (generateFieldValue oZero 0 c1cexField).1 ≠ .vStr "" := by
  constructor
  · decide
  · decide

/-- C1 as amended: if the named CSV column is not found in the header row,
resolution falls back to the trim-filtered manual `lookupValues` list; when
that list is (filtered) empty — in particular always under the
one-source-active invariant — resolution is the empty sequence and lookup
synthesis yields the empty string. -/
theorem c1_theorem (f : FieldConfig) (header : List String)
    (body : List (List String)) (col : String)
    (hcsv : f.config.csvData = some (header :: body))
    (hcol : f.config.csvColumn = some col)
    (hnot : col ∉ header)
    (hman : (f.config.lookupValues.getD []).filter (fun v => jsTrim v != "") = [])
    (hdt : f.dataType = .lookup) (hname : f.name ≠ "") :
    getLookupValues f = [] ∧
    ∀ (o : Oracle) (k : Nat), (generateFieldValue o k f).1 = .vStr "" := by
  have hlv : getLookupValues f = [] := by
    by_cases hc : col = ""
    · subst hc
      simp [getLookupValues, hcsv, hcol, hman]
    · have hfi := findIdx?_eq_none_of_not_mem header hnot 0
      simp [getLookupValues, hcsv, hcol, hc, hfi, hman]
  refine ⟨hlv, fun o k => ?_⟩
  have hcore : generateFieldValueCore o k f = (.vStr "", k) := by
    simp [generateFieldValueCore, hdt, hlv]
  simp [generateFieldValue, hname, hcore, truncateValue_emptyStr]

/-- A lookup field whose CSV column is missing and whose manual list is
empty, witnessing the amended C1. -/
def c1wField : FieldConfig :=
  ⟨"c1w", "city", .string, .lookup, false, none, none,
    ⟨none, none, none, none, some [["colA"], ["x1"]], some "colB", none, none, none⟩⟩

theorem c1_witness :
    ("colB" ∉ ["colA"]) ∧ getLookupValues c1wField = [] ∧
    (generateFieldValue oZero 0 c1wField).1 = .vStr "" := by
  refine ⟨by decide, ?_, ?_⟩
  · exact (c1_theorem c1wField ["colA"] [["x1"]] "colB" rfl rfl (by decide) rfl rfl
      (by decide)).1
  · exact (c1_theorem c1wField ["colA"] [["x1"]] "colB" rfl rfl (by decide) rfl rfl
      (by decide)).2 oZero 0

/-! ### Claim C2 -/

/-- C2: a required number field with `rangeMin = 10`, `rangeMax = 20` and no
`maxFieldLength` gets exactly the negative kinds
`empty, null, string_value, negative, decimal, overflow, below_min,
above_max`, with concrete target values `9` for `below_min` and `21` for
`above_max`, and the negative batch holds one record per kind (8 records). -/
theorem c2_theorem (f : FieldConfig)
    (hreq : f.required = true) (hty : f.type = .number)
    (hmin : f.config.rangeMin = some 10) (hmax : f.config.rangeMax = some 20)
    (_hlen : f.maxFieldLength = none) :
    getNegativeTestTypes f =
      ["empty", "null", "string_value", "negative", "decimal", "overflow",
       "below_min", "above_max"] ∧
    generateNegativeValue f "below_min" = .vInt 9 ∧
    generateNegativeValue f "above_max" = .vInt 21 ∧
    ∀ (o : Oracle) (fields : List FieldConfig) (k : Nat),
      ((negBatchForField o fields f (getNegativeTestTypes f) k).1).length = 8 := by
  have hk : getNegativeTestTypes f =
      ["empty", "null", "string_value", "negative", "decimal", "overflow",
       "below_min", "above_max"] := by
    simp [getNegativeTestTypes, hreq, hty, hmin, hmax]
  refine ⟨hk, ?_, ?_, ?_⟩
  · have : generateNegativeValue f "below_min" = .vInt (jsOrInt f.config.rangeMin 0 - 1) := rfl
    rw [this, hmin]
    rfl
  · have : generateNegativeValue f "above_max" = .vInt (jsOrInt f.config.rangeMax 100 + 1) := rfl
    rw [this, hmax]
    rfl
  · intro o fields k
    rw [negBatchForField_length, hk]
    rfl

/-- The concrete C2 field. -/
def c2wField : FieldConfig :=
  ⟨"c2w", "amount", .number, .range, true, none, none,
    ⟨none, some 10, some 20, none, none, none, none, none, none⟩⟩

theorem c2_witness :
    c2wField.required = true ∧
    (getNegativeTestTypes c2wField =
      ["empty", "null", "string_value", "negative", "decimal", "overflow",
       "below_min", "above_max"] ∧
    generateNegativeValue c2wField "below_min" = .vInt 9 ∧
    generateNegativeValue c2wField "above_max" = .vInt 21 ∧
    ∀ (o : Oracle) (fields : List FieldConfig) (k : Nat),
      ((negBatchForField o fields c2wField (getNegativeTestTypes c2wField) k).1).length = 8) :=
  ⟨rfl, c2_theorem c2wField rfl rfl rfl rfl rfl⟩

/-! ### Claim C4 -/

/-- The concrete input refuting claim C4 for non-`string` field types: a
`minmax` email field with `minLength = maxLength = 3`. -/
def c4cexField : FieldConfig :=
  ⟨"c4x", "mail", .email, .minmax, false, none, none,
    ⟨none, none, none, none, none, none, some 3, some 3, none⟩⟩

/-- C4 counterexample: for a `minmax` email field with bounds `3..3` the
synthesized pre-truncation value is the base string wrapped as
`<base>@example.com`, whose length (15 here) is not in `[3, 3]` — refuting
the claim for field types other than `string`. -/
theorem c4_counterexample :
    ¬ ∃ s : String, (generateFieldValueCore oZero 0 c4cexField).1 = .vStr s ∧
        3 ≤ (s.length : Int) ∧ (s.length : Int) ≤ 3 := by
  rintro ⟨s, hs, -, h2⟩
  have he : (generateFieldValueCore oZero 0 c4cexField).1 = .vStr "aaa@example.com" := by
    decide
  rw [he] at hs
  injection hs with h
  rw [← h] at h2
  have h15 : ("aaa@example.com" : String).length = 15 := rfl
  rw [h15] at h2
  omega

/-- C4 as amended: for a `minmax` field of type `string`, the synthesized
string length before `maxFieldLength` truncation lies in
`[effMin, effMax]`, where `effMin`/`effMax` are `minLength`/`maxLength` with
the JavaScript `|| 1` / `|| 10` fallback (unset or zero falls back), provided
the effective bounds are positive and ordered.  For other field types the
`minmax` base string is post-processed by type and the bound does not apply
to the final value. -/
theorem c4_theorem (f : FieldConfig) (o : Oracle) (k : Nat)
    (hdt : f.dataType = .minmax) (hty : f.type = .string)
    (hmin1 : 1 ≤ jsOrInt f.config.minLength 1)
    (hord : jsOrInt f.config.minLength 1 ≤ jsOrInt f.config.maxLength 10) :
    ∃ s : String, (generateFieldValueCore o k f).1 = .vStr s ∧
      jsOrInt f.config.minLength 1 ≤ (s.length : Int) ∧
      (s.length : Int) ≤ jsOrInt f.config.maxLength 10 := by
  have hpos : (0 : Int) <
      jsOrInt f.config.maxLength 10 - jsOrInt f.config.minLength 1 + 1 := by omega
  obtain ⟨hge, hlt⟩ := jsRandFloorMul_bounds (r := o.rand k) hpos
  obtain ⟨hgen, hglen⟩ := generateRandomString_string_length o (k + 1)
    (jsRandFloorMul (o.rand k)
      (jsOrInt f.config.maxLength 10 - jsOrInt f.config.minLength 1 + 1) +
     jsOrInt f.config.minLength 1)
  have hcore : generateFieldValueCore o k f =
      generateRandomString o (k + 1)
        (jsRandFloorMul (o.rand k)
          (jsOrInt f.config.maxLength 10 - jsOrInt f.config.minLength 1 + 1) +
         jsOrInt f.config.minLength 1) f.type := by
    simp [generateFieldValueCore, hdt]
  rw [hty] at hcore
  refine ⟨_, by rw [hcore, hgen], ?_, ?_⟩
  all_goals
    rw [hglen]
    rw [Int.toNat_of_nonneg (by omega)]
    omega

/-- The concrete C4 field: a string `minmax` field with bounds `3..7`. -/
def c4wField : FieldConfig :=
  ⟨"c4w", "code", .string, .minmax, false, none, none,
    ⟨none, none, none, none, none, none, some 3, some 7, none⟩⟩

theorem c4_witness :
    (1 ≤ jsOrInt c4wField.config.minLength 1) ∧
    ∃ s : String, (generateFieldValueCore oFive 0 c4wField).1 = .vStr s ∧
      jsOrInt c4wField.config.minLength 1 ≤ (s.length : Int) ∧
      (s.length : Int) ≤ jsOrInt c4wField.config.maxLength 10 :=
  ⟨by decide, c4_theorem c4wField oFive 0 rfl rfl (by decide) (by decide)⟩

/-! ### Claim C5 -/

/-- The concrete input refuting claim C5: a range field with `rangeMax` SET
to `0`, which the JavaScript `rangeMax || 100` treats as unset. -/
def c5cexField : FieldConfig :=
  ⟨"c5x", "qty", .number, .range, false, none, none,
    ⟨none, none, some 0, none, none, none, none, none, none⟩⟩

/-- C5 counterexample: with `rangeMin` unset (claimed default `0`) and
`rangeMax` set to `0`, the claim asserts the value lies in `[0, 0]`; the code
treats the set-but-zero bound as unset (`|| 100`) and, for the oracle drawing
`5`, produces `5` — refuting the "only an unset bound falls back" claim. -/
theorem c5_counterexample :
    ¬ ∃ n : Int, (generateFieldValue oFive 0 c5cexField).1 = .vInt n ∧
        0 ≤ n ∧ n ≤ 0 := by
  rintro ⟨n, hn, -, h2⟩
  have he : (generateFieldValue oFive 0 c5cexField).1 = .vInt 5 := by decide
  rw [he] at hn
  injection hn with h
  omega

/-- C5 as amended: for a `range` field the synthesized value is an integer in
`[effMin, effMax]` where `effMin = rangeMin || 0` and `effMax = rangeMax ||
100` (so an unset or zero bound falls back), provided `effMin ≤ effMax`;
generation is total and never fails on missing bounds. -/
theorem c5_theorem (f : FieldConfig) (o : Oracle) (k : Nat)
    (hdt : f.dataType = .range) (hname : f.name ≠ "")
    (hord : jsOrInt f.config.rangeMin 0 ≤ jsOrInt f.config.rangeMax 100) :
    ∃ n : Int, (generateFieldValue o k f).1 = .vInt n ∧
      jsOrInt f.config.rangeMin 0 ≤ n ∧ n ≤ jsOrInt f.config.rangeMax 100 := by
  have hpos : (0 : Int) <
      jsOrInt f.config.rangeMax 100 - jsOrInt f.config.rangeMin 0 + 1 := by omega
  obtain ⟨hge, hlt⟩ := jsRandFloorMul_bounds (r := o.rand k) hpos
  refine ⟨jsRandFloorMul (o.rand k)
      (jsOrInt f.config.rangeMax 100 - jsOrInt f.config.rangeMin 0 + 1) +
      jsOrInt f.config.rangeMin 0, ?_, by omega, by omega⟩
  have hcore : generateFieldValueCore o k f =
      (.vInt (jsRandFloorMul (o.rand k)
        (jsOrInt f.config.rangeMax 100 - jsOrInt f.config.rangeMin 0 + 1) +
        jsOrInt f.config.rangeMin 0), k + 1) := by
    simp [generateFieldValueCore, hdt]
  simp [generateFieldValue, hname, hcore, truncateValue_int]

/-- The concrete C5 field: a range field with bounds `10..20`. -/
def c5wField : FieldConfig :=
  ⟨"c5w", "qty", .number, .range, false, none, none,
    ⟨none, some 10, some 20, none, none, none, none, none, none⟩⟩

theorem c5_witness :
    (jsOrInt c5wField.config.rangeMin 0 ≤ jsOrInt c5wField.config.rangeMax 100) ∧
    ∃ n : Int, (generateFieldValue oFive 0 c5wField).1 = .vInt n ∧
      jsOrInt c5wField.config.rangeMin 0 ≤ n ∧ n ≤ jsOrInt c5wField.config.rangeMax 100 :=
  ⟨by decide, c5_theorem c5wField oFive 0 rfl (by decide) (by decide)⟩

/-! ### Claim C8 -/

/-- C8: inference on `{command:"type", label:"Email Address",
value:"jane@acme.com"}` yields the field `email_address` of type `email`,
strategy `pattern`, pattern `{random}@acme.com`; and inference on a password
command with sample `Ab3x` yields the pattern
`{UPPER}{lower}{digit}{lower}`. -/
theorem c8_theorem : ∀ ids : Nat → String,
    sidExtractFields ids [⟨"1", some "Email Address", "type", "", "jane@acme.com", none⟩] [] =
      [⟨ids 0, "email_address", .email, .pattern, true, none, none,
        patternOnlyConfig "{random}@acme.com"⟩] ∧
    generatePasswordPattern "Ab3x" = "{UPPER}{lower}{digit}{lower}" ∧
    sidExtractFields ids [⟨"2", some "Password", "password", "", "Ab3x", none⟩] [] =
      [⟨ids 0, "password", .string, .pattern, true, none, none,
        patternOnlyConfig "{UPPER}{lower}{digit}{lower}"⟩] := by
  intro ids
  exact ⟨rfl, rfl, rfl⟩

/-! ### Claim C3 -/

/-- C3: a single-field configuration — `string`, `required`,
`minmax(3,3)`, `generateNegativeTests` unset — still produces negative
records, auto-eligible via `required`: the non-positive records carry exactly
the kinds `empty, null, too_long, special_chars, sql_injection` in order, and
every one of them has `_autoSelected = true`. -/
theorem c3_theorem (f : FieldConfig) (o : Oracle) (rc : Nat) (inc : Bool)
    (hty : f.type = .string) (hreq : f.required = true) (hdt : f.dataType = .minmax)
    (hminl : f.config.minLength = some 3) (hmaxl : f.config.maxLength = some 3)
    (hneg : f.generateNegativeTests = none) (hlen : f.maxFieldLength = none)
    (hname : f.name ≠ "") (hn1 : f.name ≠ "_testType") (hn2 : f.name ≠ "_autoSelected") :
    (((generateTestData o [f] rc inc).filter (fun r => !isPositiveRec r)).map
        (fun r => lookupKey r "_testType") =
      [some (.vStr "negative_empty"), some (.vStr "negative_null"),
       some (.vStr "negative_too_long"), some (.vStr "negative_special_chars"),
       some (.vStr "negative_sql_injection")]) ∧
    ∀ r ∈ generateTestData o [f] rc inc, isPositiveRec r = false →
      lookupKey r "_autoSelected" = some (.vBool true) := by
  have hauto : shouldAutoEnableNegativeTests f = true := by
    simp [shouldAutoEnableNegativeTests, hreq]
  have hlkf : [f].filter isLkField = [] := by
    simp [isLkField, hdt]
  have hkinds : getNegativeTestTypes f =
      ["empty", "null", "too_long", "special_chars", "sql_injection"] := by
    simp [getNegativeTestTypes, hreq, hty, hlen, intTruthy]
  have hfs : ∀ g ∈ [f], g.name = "" ∨ g.name ≠ "_testType" := by
    intro g hg
    rw [List.mem_singleton] at hg
    subst hg
    exact Or.inr hn1
  have hfs2 : ∀ g ∈ [f], g.name = "" ∨ g.name ≠ "_autoSelected" := by
    intro g hg
    rw [List.mem_singleton] at hg
    subst hg
    exact Or.inr hn2
  have hout : generateTestData o [f] rc inc =
      (posBatchStd o [f] rc 0).1 ++
      (negBatchForField o [f] f (getNegativeTestTypes f) ((posBatchStd o [f] rc 0).2)).1 := by
    rw [generateTestData_eq_pos_neg]
    have h3 : negativeTestFields [f] = [f] := by
      simp [negativeTestFields, hauto, hname]
    simp [hlkf, hauto, h3, negBatchAll]
  constructor
  · rw [hout, List.filter_append, List.map_append]
    have hpos0 : ((posBatchStd o [f] rc 0).1.filter (fun r => !isPositiveRec r)) = [] := by
      rw [List.filter_eq_nil_iff]
      intro r hr
      obtain ⟨k0, rfl⟩ := posBatchStd_mem o [f] rc 0 r hr
      simp [isPositiveRec, posRecordStd_testType o [f] k0 hfs]
    have hneg1 : ((negBatchForField o [f] f (getNegativeTestTypes f)
        ((posBatchStd o [f] rc 0).2)).1.filter (fun r => !isPositiveRec r)) =
        (negBatchForField o [f] f (getNegativeTestTypes f) ((posBatchStd o [f] rc 0).2)).1 := by
      rw [List.filter_eq_self]
      intro r hr
      obtain ⟨t, ht, k0, rfl⟩ := negBatchForField_mem o [f] f _ _ r hr
      simp [isPositiveRec, negRecord_testType o [f] f t k0 hfs]
      exact negative_ne_positive t
    rw [hpos0, hneg1, negBatchForField_map o [f] f hfs, hkinds]
    rfl
  · intro r hr hnp
    rw [hout] at hr
    rcases List.mem_append.mp hr with h | h
    · obtain ⟨k0, rfl⟩ := posBatchStd_mem o [f] rc 0 r h
      simp [isPositiveRec, posRecordStd_testType o [f] k0 hfs] at hnp
    · obtain ⟨t, ht, k0, rfl⟩ := negBatchForField_mem o [f] f _ _ r h
      rw [negRecord_autoSelected o [f] f t k0 hfs2, hauto]

/-- The concrete C3 field. -/
def c3wField : FieldConfig :=
  ⟨"c3w", "fld", .string, .minmax, true, none, none,
    ⟨none, none, none, none, none, none, some 3, some 3, none⟩⟩

theorem c3_witness :
    c3wField.generateNegativeTests = none ∧
    (((generateTestData oZero [c3wField] 4 false).filter (fun r => !isPositiveRec r)).map
        (fun r => lookupKey r "_testType") =
      [some (.vStr "negative_empty"), some (.vStr "negative_null"),
       some (.vStr "negative_too_long"), some (.vStr "negative_special_chars"),
       some (.vStr "negative_sql_injection")]) :=
  ⟨rfl, (c3_theorem c3wField oZero 4 false rfl rfl rfl rfl rfl rfl rfl
    (by decide) (by decide) (by decide)).1⟩

/-! ### Claim C9 -/

/-- C9: no record of any generation run contains the empty string as a key —
a field with an empty name contributes no key; the metadata keys are
nonempty. -/
theorem c9_theorem (o : Oracle) (fields : List FieldConfig) (rc : Nat) (inc : Bool) :
    ∀ r ∈ generateTestData o fields rc inc, ∀ p ∈ r, p.1 ≠ "" := by
  intro r hr p hp
  have hinit1 : ∀ q ∈ ([("_testType", JsVal.vStr "positive")] : GenRecord), q.1 ≠ "" := by
    intro q hq
    rw [List.mem_singleton] at hq
    subst hq
    decide
  rcases mem_generateTestData o fields rc inc hr with
    ⟨k0, rfl⟩ | ⟨i0, k0, rfl⟩ | ⟨tf, -, t, -, k0, rfl⟩
  · unfold posRecordStd at hp
    exact buildRecord_keys_ne _ fields _ _ hinit1 p hp
  · unfold posRecordLk at hp
    exact buildRecord_keys_ne _ fields _ _ hinit1 p hp
  · unfold negRecord at hp
    refine buildRecord_keys_ne _ fields _ _ ?_ p hp
    intro q hq
    simp only [List.mem_cons, List.not_mem_nil, or_false] at hq
    rcases hq with h | h | h
    · subst h
      exact fun hc => absurd hc (show ("_testType" : String) ≠ "" by decide)
    · subst h
      exact fun hc => absurd hc (show ("_targetField" : String) ≠ "" by decide)
    · subst h
      exact fun hc => absurd hc (show ("_autoSelected" : String) ≠ "" by decide)

/-- The concrete C9 field and record. -/
def c9wField : FieldConfig :=
  ⟨"c9w", "w", .string, .static, false, none, none,
    ⟨some "v", none, none, none, none, none, none, none, none⟩⟩

def c9wRecord : GenRecord := [("_testType", .vStr "positive"), ("w", .vStr "v")]

theorem c9_witness :
    c9wRecord ∈ generateTestData oZero [c9wField] 1 false ∧
    ("_testType", JsVal.vStr "positive") ∈ c9wRecord ∧ ("_testType" : String) ≠ "" :=
  ⟨by decide, by decide,
    c9_theorem oZero [c9wField] 1 false c9wRecord (by decide)
      ("_testType", JsVal.vStr "positive") (by decide)⟩

/-! ### Claim C10 -/

/-- From pairwise name-distinctness, no field after `f` shares the nonempty
name of `f`. -/
theorem pairwise_post_names {fields pre post : List FieldConfig} {f : FieldConfig}
    (hpair : fields.Pairwise (fun a b => a.name = "" ∨ b.name = "" ∨ a.name ≠ b.name))
    (hsplit : fields = pre ++ f :: post) (hname : f.name ≠ "") :
    ∀ g ∈ post, g.name = "" ∨ g.name ≠ f.name := by
  have hsub : (f :: post).Pairwise
      (fun a b => a.name = "" ∨ b.name = "" ∨ a.name ≠ b.name) := by
    refine List.Pairwise.sublist ?_ hpair
    rw [hsplit]
    exact List.sublist_append_right pre (f :: post)
  have hrel := (List.pairwise_cons.mp hsub).1
  intro g hg
  rcases hrel g hg with h | h | h
  · exact absurd h hname
  · exact Or.inl h
  · exact Or.inr (Ne.symm h)

/-- C10: in a negative record the target field holds the untruncated value
from the deterministic kind table (no `maxFieldLength` truncation is
applied to it): the record entry equals `generateNegativeValue` verbatim; a
`too_long` value always has 1000 characters regardless of `maxFieldLength`;
and an `exceed_length` value (which only occurs when `maxFieldLength` is
truthy) has `maxFieldLength + 10` characters.  Only sibling fields pass
through `generateFieldValue`, which is where truncation lives. -/
theorem c10_theorem (o : Oracle) (fields : List FieldConfig) (tf : FieldConfig)
    (t : String) (k : Nat)
    (hpair : fields.Pairwise (fun a b => a.name = "" ∨ b.name = "" ∨ a.name ≠ b.name))
    (htf : tf ∈ fields) (hname : tf.name ≠ "") (ht : t ∈ getNegativeTestTypes tf) :
    lookupKey (negRecord o fields tf t k).1 tf.name = some (generateNegativeValue tf t) ∧
    (t = "too_long" → ∃ s, generateNegativeValue tf t = .vStr s ∧ s.length = 1000) ∧
    (t = "exceed_length" → ∀ m : Int, tf.maxFieldLength = some m → 0 < m →
      ∃ s, generateNegativeValue tf t = .vStr s ∧ (s.length : Int) = m + 10) := by
  refine ⟨?_, ?_, ?_⟩
  · obtain ⟨pre, post, hsplit⟩ := List.append_of_mem htf
    have hpost : ∀ g ∈ post, g.name = "" ∨ g.name ≠ tf.name :=
      pairwise_post_names hpair hsplit hname
    rw [hsplit]
    unfold negRecord
    exact buildRecord_target _ tf (generateNegativeValue tf t) pre post _ k
      (fun k2 => by rw [if_pos rfl]) hname hpost
  · intro ht1
    subst ht1
    refine ⟨String.mk (List.replicate 1000 'A'), rfl, ?_⟩
    show (List.replicate 1000 'A').length = 1000
    rw [List.length_replicate]
  · intro ht1 m hm hmp
    subst ht1
    refine ⟨String.mk (List.replicate (jsOrInt tf.maxFieldLength 50 + 10).toNat 'A'), rfl, ?_⟩
    have h1 : jsOrInt tf.maxFieldLength 50 = m := by
      rw [hm]
      simp [jsOrInt]
      omega
    have h2 : (String.mk (List.replicate (jsOrInt tf.maxFieldLength 50 + 10).toNat 'A')).length =
        (jsOrInt tf.maxFieldLength 50 + 10).toNat := by
      show (List.replicate _ 'A').length = _
      rw [List.length_replicate]
    rw [h2, h1]
    exact Int.toNat_of_nonneg (by omega)

/-- The concrete C10 field: a required string field with
`maxFieldLength = 5`, so the `exceed_length` kind applies. -/
def c10wField : FieldConfig :=
  ⟨"c10w", "s", .string, .static, true, some 5, none,
    ⟨some "v", none, none, none, none, none, none, none, none⟩⟩

theorem c10_witness :
    ("exceed_length" ∈ getNegativeTestTypes c10wField) ∧
    lookupKey (negRecord oZero [c10wField] c10wField "exceed_length" 0).1 c10wField.name =
      some (generateNegativeValue c10wField "exceed_length") ∧
    ∃ s, generateNegativeValue c10wField "exceed_length" = .vStr s ∧ (s.length : Int) = 5 + 10 := by
  have h := c10_theorem oZero [c10wField] c10wField "exceed_length" 0 (by simp)
    (by decide) (by decide) (by decide)
  exact ⟨by decide, h.1, h.2.2 rfl 5 rfl (by decide)⟩

/-! ### Claim C6 -/

/-- C6: when some lookup field resolves to a nonempty list, the run produces
exactly `min (maxLookupValues, recordCount)` positive records, each tagged
`_testType = "positive"`, and the `j`-th positive record holds the `j`-th
resolved value of each lookup field (for `j` below the length of the
resolved list of that field). -/
theorem c6_theorem (o : Oracle) (fields : List FieldConfig) (rc : Nat) (inc : Bool)
    (hlk : (fields.filter isLkField).isEmpty = false)
    (hpair : fields.Pairwise (fun a b => a.name = "" ∨ b.name = "" ∨ a.name ≠ b.name))
    (hts : ∀ g ∈ fields, g.name = "" ∨ g.name ≠ "_testType") :
    (((generateTestData o fields rc inc).filter isPositiveRec).length =
      min (maxLookupLen fields) rc) ∧
    (∀ j < min (maxLookupLen fields) rc,
      ∃ r, (generateTestData o fields rc inc)[j]? = some r ∧ isPositiveRec r = true) ∧
    (∀ f ∈ fields, f.dataType = .lookup → f.name ≠ "" →
      ∀ j, j < min (maxLookupLen fields) rc → j < (getLookupValues f).length →
        ∃ r, (generateTestData o fields rc inc)[j]? = some r ∧
          lookupKey r f.name = some (.vStr ((getLookupValues f).getD j ""))) := by
  have hlkp : ¬ ((fields.filter isLkField).isEmpty = true) := by simp [hlk]
  have hout : generateTestData o fields rc inc =
      (posBatchLk o fields 0 (min (maxLookupLen fields) rc) 0).1 ++
      (if (inc || fields.any shouldAutoEnableNegativeTests) then
        (negBatchAll o fields (negativeTestFields fields)
          ((posBatchLk o fields 0 (min (maxLookupLen fields) rc) 0).2)).1
       else []) := by
    rw [generateTestData_eq_pos_neg]
    rw [if_neg hlkp]
    by_cases hc : (inc || fields.any shouldAutoEnableNegativeTests) = true
    · rw [if_pos hc, if_pos hc, if_neg hlkp]
    · rw [if_neg hc, if_neg hc]
  refine ⟨?_, ?_, ?_⟩
  · rw [hout, List.filter_append]
    have hposall : ((posBatchLk o fields 0 (min (maxLookupLen fields) rc) 0).1.filter
        isPositiveRec) = (posBatchLk o fields 0 (min (maxLookupLen fields) rc) 0).1 := by
      rw [List.filter_eq_self]
      intro r hr
      obtain ⟨i0, k0, rfl⟩ := posBatchLk_mem o fields _ 0 0 r hr
      simp [isPositiveRec, posRecordLk_testType o fields i0 k0 hts]
    have hnegnone : ((if (inc || fields.any shouldAutoEnableNegativeTests) then
        (negBatchAll o fields (negativeTestFields fields)
          ((posBatchLk o fields 0 (min (maxLookupLen fields) rc) 0).2)).1
       else []).filter isPositiveRec) = [] := by
      by_cases hc : (inc || fields.any shouldAutoEnableNegativeTests) = true
      · rw [if_pos hc, List.filter_eq_nil_iff]
        intro r hr
        obtain ⟨tf, -, t, -, k0, rfl⟩ := negBatchAll_mem o fields _ _ r hr
        simp [isPositiveRec, negRecord_testType o fields tf t k0 hts]
        exact negative_ne_positive t
      · rw [if_neg hc]
        rfl
    rw [hposall, hnegnone, List.append_nil, posBatchLk_length]
  · intro j hj
    obtain ⟨k0, hk0⟩ := posBatchLk_getElem o fields _ 0 0 j hj
    rw [Nat.zero_add] at hk0
    refine ⟨(posRecordLk o fields j k0).1, ?_, ?_⟩
    · rw [hout, List.getElem?_append_left (by rw [posBatchLk_length]; exact hj), hk0]
    · simp [isPositiveRec, posRecordLk_testType o fields j k0 hts]
  · intro f hfmem hfdt hfname j hj hjlen
    obtain ⟨k0, hk0⟩ := posBatchLk_getElem o fields _ 0 0 j hj
    rw [Nat.zero_add] at hk0
    refine ⟨(posRecordLk o fields j k0).1, ?_, ?_⟩
    · rw [hout, List.getElem?_append_left (by rw [posBatchLk_length]; exact hj), hk0]
    · obtain ⟨pre, post, hsplit⟩ := List.append_of_mem hfmem
      have hpost : ∀ g ∈ post, g.name = "" ∨ g.name ≠ f.name :=
        pairwise_post_names hpair hsplit hfname
      have hlen : 0 < (getLookupValues f).length := by omega
      have hmod : j % (getLookupValues f).length = j := Nat.mod_eq_of_lt hjlen
      rw [hsplit]
      unfold posRecordLk
      exact buildRecord_target _ f (.vStr ((getLookupValues f).getD j "")) pre post _ k0
        (fun k2 => by simp [hfdt, hlen, hmod]) hfname hpost

/-- The concrete C6 field: a lookup field resolving to three values. -/
def c6wField : FieldConfig :=
  ⟨"c6w", "city", .string, .lookup, false, none, none,
    ⟨none, none, none, some ["a", "b", "c"], none, none, none, none, none⟩⟩

theorem c6_witness :
    (([c6wField] : List FieldConfig).filter isLkField).isEmpty = false ∧
    (((generateTestData oZero [c6wField] 10 false).filter isPositiveRec).length =
      min (maxLookupLen [c6wField]) 10) ∧
    (∃ r, (generateTestData oZero [c6wField] 10 false)[1]? = some r ∧
      lookupKey r c6wField.name = some (.vStr ((getLookupValues c6wField).getD 1 ""))) := by
  have h := c6_theorem oZero [c6wField] 10 false (by decide) (by simp) (by decide)
  exact ⟨by decide, h.1, h.2.2 c6wField (by decide) (by decide) (by decide) 1
    (by decide) (by decide)⟩

/-! ### Claim C7 -/

/-- The concrete C7 field. -/
def c7wField : FieldConfig :=
  ⟨"c7w", "s", .string, .static, true, none, none,
    ⟨some "v", none, none, none, none, none, none, none, none⟩⟩

/-- C7: the output of a run is the full positive batch followed by the
negative batches — grouped per eligible target field in declaration order
and, within one field, ordered by `getNegativeTestTypes` — and every
kind list is a sublist of the §4.6 kind vocabulary in its listed order
(required-driven kinds first, then the type-specific kinds). -/
theorem c7_theorem (o : Oracle) (fields : List FieldConfig) (rc : Nat) (inc : Bool)
    (hf : ∀ g ∈ fields, g.name = "" ∨ g.name ≠ "_testType") :
    ((generateTestData o fields rc inc).map (fun r => lookupKey r "_testType") =
      List.replicate
        (if (fields.filter isLkField).isEmpty then rc else min (maxLookupLen fields) rc)
        (some (.vStr "positive")) ++
      (if (inc || fields.any shouldAutoEnableNegativeTests) then
        (negativeTestFields fields).flatMap (fun tf =>
          (getNegativeTestTypes tf).map (fun t => some (.vStr ("negative_" ++ t))))
       else [])) ∧
    ∀ g : FieldConfig, (getNegativeTestTypes g).Sublist (specNegativeKindOrder g) := by
  constructor
  · rw [generateTestData_eq_pos_neg, List.map_append]
    congr 1
    · by_cases hlk : (fields.filter isLkField).isEmpty = true
      · rw [if_pos hlk, if_pos hlk, posBatchStd_map o fields hf rc 0]
      · rw [if_neg hlk, if_neg hlk, posBatchLk_map o fields hf _ 0 0]
    · by_cases hneg : (inc || fields.any shouldAutoEnableNegativeTests) = true
      · rw [if_pos hneg, if_pos hneg, negBatchAll_map o fields hf]
      · rw [if_neg hneg, if_neg hneg]
        rfl
  · intro g
    rcases g with ⟨gid, gname, gty, gdt, greq, gmfl, ggnt, gcfg⟩
    cases gty <;> cases greq <;>
      cases htm : intTruthy gmfl <;>
      cases h1 : gcfg.rangeMin.isSome <;>
      cases h2 : gcfg.rangeMax.isSome <;>
      simp [getNegativeTestTypes, specNegativeKindOrder, htm, h1, h2]

theorem c7_witness :
    ((generateTestData oZero [c7wField] 1 false).map (fun r => lookupKey r "_testType") =
      List.replicate
        (if (([c7wField] : List FieldConfig).filter isLkField).isEmpty then 1
         else min (maxLookupLen [c7wField]) 1)
        (some (.vStr "positive")) ++
      (if (false || ([c7wField] : List FieldConfig).any shouldAutoEnableNegativeTests) then
        (negativeTestFields [c7wField]).flatMap (fun tf =>
          (getNegativeTestTypes tf).map (fun t => some (.vStr ("negative_" ++ t))))
       else [])) ∧
    (getNegativeTestTypes c7wField).Sublist (specNegativeKindOrder c7wField) := by
  have h := c7_theorem oZero [c7wField] 1 false (by decide)
  exact ⟨h.1, h.2 c7wField⟩

end TDG
